import Mathlib

/-!
Verification model of the realtime client multiplexing core of this
repository (Socket / Channel / Push, the phoenix-style pub/sub layer).
The repository ships only TypeScript declaration files for these
components, so each operational definition below is modelled from the
specification document; such definitions carry a doc comment starting
with the words Modelled from the spec.
-/

/-- Numeric value of a decimal digit character, used to read a ref string
back as a number. -/
def digitVal (c : Char) : Nat := c.toNat - 48

/-- Reads a decimal string back as the number it denotes; a left inverse
of Nat.repr on its image (see parseNat_repr). -/
def parseNat (s : String) : Nat := s.data.foldl (fun a c => 10 * a + digitVal c) 0

/-- Modelled from the spec: a reply value carried by a reply envelope or
synthesized locally, the pair status plus response of section 4.1; the
concrete response data is opaque to the core, so it is represented by a
number. The Push implementation file is absent from the repository
sources (only its declaration file is present). -/
structure Resp where
  status : String
  response : Nat
deriving DecidableEq

/-- Modelled from the spec: one entry of recHooks, a status keyed callback
registration of Push.receive; callbacks are opaque to the core and are
represented by an identifier. -/
structure Hook where
  status : String
  callback : Nat
deriving DecidableEq

/-- An observable callback invocation: which callback ran and with which
response value. The model returns these instead of running closures. -/
structure Call where
  callback : Nat
  response : Nat
deriving DecidableEq

/-- Modelled from the spec: the Push record of section 3, tracking one
outbound request: event, payload, timeout, sent flag, armed timeout
timer, ref string, first received response, registered hooks, and the
reply event binding name (none once cancelled). The Push implementation
file is absent from the repository sources. -/
structure Push where
  topic : String
  event : String
  payload : Nat
  timeout : Nat
  sent : Bool
  timeoutTimer : Bool
  ref : String
  receivedResp : Option Resp
  recHooks : List Hook
  refEvent : Option String
deriving DecidableEq

/-- Modelled from the spec: hasReceived, whether a response with the given
status was already recorded for this Push. -/
def Push.hasReceived (p : Push) (status : String) : Bool :=
  match p.receivedResp with
  | some r => r.status == status
  | none => false

/-- Modelled from the spec: matchReceive invokes every hook registered for
the given status, in registration order, with the stored response. -/
def Push.matchReceive (p : Push) (r : Resp) : List Call :=
  (p.recHooks.filter (fun h => h.status == r.status)).map
    (fun h => { callback := h.callback, response := r.response })

/-- Modelled from the spec: Push.receive registers the callback for the
status; if a response with that status was already received the callback
is invoked immediately; returns the Push itself (updated in the explicit
state passing of this model) for chaining. The implementation file of
Push is absent from the repository sources. -/
def Push.receive (p : Push) (status : String) (cb : Nat) : Push × List Call :=
  let calls :=
    match p.receivedResp with
    | some r => if r.status == status then [{ callback := cb, response := r.response }] else []
    | none => []
  ({ p with recHooks := p.recHooks ++ [{ status := status, callback := cb }] }, calls)

/-- Modelled from the spec: the locally synthesized timeout response of
startTimeout, status timeout with an empty response object. -/
def timeoutResp : Resp := { status := "timeout", response := 0 }

/-- The two events that can settle a Push: its local timeout timer firing,
or a reply envelope for its ref arriving via the reply event binding. -/
inductive PushEvent
  | timeoutFire
  | reply (r : Resp)
deriving DecidableEq

/-- Modelled from the spec: the reaction of a Push to a settling event.
A timer expiry (only when the timer is still armed) synthesizes the
timeout response, cancels the reply event binding and the timer, records
the response, and fires the timeout hooks. A reply is delivered through
the reply event binding: when the binding is present it is removed, the
timer is cancelled, the response recorded, and matching hooks fire; when
the binding was already removed the reply is discarded. The Push
implementation file is absent from the repository sources. -/
def Push.step (p : Push) : PushEvent → Push × List Call
  | .timeoutFire =>
    if p.timeoutTimer then
      ({ p with timeoutTimer := false, refEvent := none,
                receivedResp := some timeoutResp },
        p.matchReceive timeoutResp)
    else (p, [])
  | .reply r =>
    if p.refEvent.isSome then
      ({ p with timeoutTimer := false, refEvent := none, receivedResp := some r },
        p.matchReceive r)
    else (p, [])

/-- Runs a Push through a list of events, keeping only the final state. -/
def Push.runP (p : Push) : List PushEvent → Push
  | [] => p
  | e :: es => ((p.step e).1).runP es

/-- Counts, along a run, the steps at which the reply event binding goes
from present to removed. -/
def Push.removals (p : Push) : List PushEvent → Nat
  | [] => 0
  | e :: es =>
    (if p.refEvent.isSome && ((p.step e).1.refEvent).isNone then 1 else 0)
      + ((p.step e).1).removals es

/-- A Push whose timer is armed and whose reply event binding is present:
the state right after send has started the timeout. -/
def Push.startedB (p : Push) : Bool := p.timeoutTimer && p.refEvent.isSome

/-- A Push that can no longer change: timer disarmed and binding removed. -/
def Push.settledB (p : Push) : Bool := !p.timeoutTimer && p.refEvent.isNone

/-- Transport readiness states (connecting, open, closing, closed) as
exposed by the WebSocket transport boundary. -/
inductive ReadyState
  | connecting
  | opened
  | closing
  | closed
deriving DecidableEq

/-- The transport object owned by the socket, reduced to the readiness
state the core queries. -/
structure Conn where
  readyState : ReadyState
deriving DecidableEq

/-- Channel (topic subscription) states of section 4.2. -/
inductive ChanState
  | closed
  | errored
  | joined
  | joining
  | leaving
deriving DecidableEq

/-- Modelled from the spec: the Channel record as far as the socket level
claims need it: an identity, its topic, its state, and its opaque join
parameters. The Channel implementation file is absent from the
repository sources. -/
structure Channel where
  id : Nat
  topic : String
  state : ChanState
  params : Nat
deriving DecidableEq

/-- The wire envelope: topic, event, opaque payload, ref. -/
structure Message where
  topic : String
  event : String
  payload : Nat
  ref : String
deriving DecidableEq

/-- Observable socket side effects: transmitting an encoded message,
force closing the transport, scheduling a reconnect, dispatching an
envelope to a channel, and the push timer manipulations of resend. -/
inductive Effect
  | transmit (m : Message)
  | forceClose
  | scheduleReconnect
  | dispatch (chanId : Nat) (m : Message)
  | cancelPushTimeout
  | startPushTimeout
deriving DecidableEq

/-- The resolution value of the disconnect promise. -/
structure DisconnectResult where
  error : Option String
  data : Bool
deriving DecidableEq

/-- Modelled from the spec: the Socket record of section 3: registry of
channels (with a fresh identity counter), at most one transport, the
ordered send buffer (each pending closure represented by the message it
would serialize and send), the ref counter with its configured overflow
boundary, the pending heartbeat ref, and the two timers. The
RealtimeClient implementation file is absent from the repository
sources (only its declaration file is present). -/
structure Socket where
  channels : List Channel
  nextChanId : Nat
  conn : Option Conn
  sendBuffer : List Message
  ref : Nat
  refOverflow : Nat
  pendingHeartbeatRef : Option String
  heartbeatTimer : Bool
  reconnectTimer : Bool
deriving DecidableEq

/-- Modelled from the spec: the counter core of makeRef; increments the
ref and renders it as a string, wrapping to the string 0 once the
configured overflow boundary is passed. -/
def makeRefCore (bound r : Nat) : String × Nat :=
  let newRef := r + 1
  if bound < newRef then ("0", 0) else (Nat.repr newRef, newRef)

/-- Modelled from the spec: makeRef on the socket state. -/
def Socket.makeRef (s : Socket) : String × Socket :=
  let rs := makeRefCore s.refOverflow s.ref
  (rs.1, { s with ref := rs.2 })

/-- Modelled from the spec: connectionState returns the readiness of the
current transport as one of four strings, reading closed when no
transport is present. -/
def Socket.connectionState (s : Socket) : String :=
  match s.conn with
  | some c =>
    match c.readyState with
    | ReadyState.connecting => "connecting"
    | ReadyState.opened => "open"
    | ReadyState.closing => "closing"
    | ReadyState.closed => "closed"
  | none => "closed"

/-- Modelled from the spec: isConnected holds exactly when the connection
state reads open. -/
def Socket.isConnected (s : Socket) : Bool := s.connectionState == "open"

/-- Modelled from the spec: push transmits the encoded message immediately
when connected, otherwise appends the serialize and send closure
(represented by its message) to the send buffer. -/
def Socket.push (s : Socket) (m : Message) : Socket × List Effect :=
  if s.isConnected then (s, [Effect.transmit m])
  else ({ s with sendBuffer := s.sendBuffer ++ [m] }, [])

/-- Modelled from the spec: flushSendBuffer runs the buffered closures in
enqueue order once connected and clears the buffer. -/
def Socket.flushSendBuffer (s : Socket) : Socket × List Effect :=
  if s.isConnected then ({ s with sendBuffer := [] }, s.sendBuffer.map Effect.transmit)
  else (s, [])

/-- Modelled from the spec: channel returns an existing registered Channel
for the topic when one sits at the closed state reuse boundary, else
constructs a new Channel (with a fresh identity), registers it, and
returns it. -/
def Socket.channel (s : Socket) (topic : String) (chanParams : Nat) : Socket × Channel :=
  match s.channels.find? (fun c => c.topic == topic && c.state == ChanState.closed) with
  | some c => (s, c)
  | none =>
    let c : Channel :=
      { id := s.nextChanId, topic := topic, state := ChanState.closed,
        params := chanParams }
    ({ s with channels := s.channels ++ [c], nextChanId := s.nextChanId + 1 }, c)

/-- Modelled from the spec: onConnMessage decodes an inbound envelope; when
its ref equals the pending heartbeat ref it only clears that ref instead
of dispatching to a channel; otherwise it dispatches the envelope to
every registered channel whose topic equals the envelope topic by exact
string equality, and an envelope matching no channel is silently
dropped. -/
def Socket.onConnMessage (s : Socket) (m : Message) : Socket × List Effect :=
  if s.pendingHeartbeatRef == some m.ref then
    ({ s with pendingHeartbeatRef := none }, [])
  else
    (s, (s.channels.filter (fun c => c.topic == m.topic)).map
      (fun c => Effect.dispatch c.id m))

/-- The heartbeat envelope on the reserved phoenix topic. -/
def heartbeatMessage (r : String) : Message :=
  { topic := "phoenix", event := "heartbeat", payload := 0, ref := r }

/-- Modelled from the spec: the heartbeat tick; when a previous heartbeat
is still pending the transport is force closed and a reconnect is
scheduled instead of queueing a second heartbeat; otherwise a heartbeat
push is sent on the phoenix topic and its ref recorded as the pending
heartbeat ref. -/
def Socket.sendHeartbeat (s : Socket) : Socket × List Effect :=
  if s.isConnected then
    match s.pendingHeartbeatRef with
    | some _ =>
      ({ s with pendingHeartbeatRef := none, conn := none, reconnectTimer := true },
        [Effect.forceClose, Effect.scheduleReconnect])
    | none =>
      let rs := s.makeRef
      Socket.push { rs.2 with pendingHeartbeatRef := some rs.1 } (heartbeatMessage rs.1)
  else (s, [])

/-- Modelled from the spec: disconnect cancels the reconnect and heartbeat
timers, closes the transport if present, and resolves with a success
value; it never throws to the caller. -/
def Socket.disconnect (s : Socket) : Socket × DisconnectResult :=
  ({ s with heartbeatTimer := false, reconnectTimer := false, conn := none },
    { error := none, data := true })

/-- The socket level events: a heartbeat timer tick, an inbound envelope,
the transport open and close events, an outbound push request, and a
disconnect request. -/
inductive SockEvent
  | heartbeatTick
  | inbound (m : Message)
  | connOpen
  | connClose
  | pushReq (m : Message)
  | disconnectReq
deriving DecidableEq

/-- Modelled from the spec: the socket reaction to each event; transport
open flushes the send buffer, resets the heartbeat (clearing any pending
heartbeat ref), and cancels the reconnect timer; transport close stops
the heartbeat and schedules a reconnect. -/
def Socket.step (s : Socket) : SockEvent → Socket × List Effect
  | SockEvent.heartbeatTick => s.sendHeartbeat
  | SockEvent.inbound m => s.onConnMessage m
  | SockEvent.connOpen =>
    Socket.flushSendBuffer
      { s with pendingHeartbeatRef := none, heartbeatTimer := true,
               reconnectTimer := false }
  | SockEvent.connClose =>
    ({ s with heartbeatTimer := false, reconnectTimer := true },
      [Effect.scheduleReconnect])
  | SockEvent.pushReq m => s.push m
  | SockEvent.disconnectReq => ((s.disconnect).1, [])

/-- Reply event name derived from a ref. -/
def replyEventName (r : String) : String := "chan_reply_" ++ r

/-- Modelled from the spec: resend cancels any existing timeout timer,
clears the received response, obtains a fresh ref from the socket,
rebinds the reply event, and sends again (starting a new timeout). -/
def Push.resend (p : Push) (s : Socket) (tmo : Nat) : Push × Socket × List Effect :=
  let rs := s.makeRef
  let p1 : Push :=
    { p with timeout := tmo, receivedResp := none, ref := rs.1,
             refEvent := some (replyEventName rs.1), timeoutTimer := true,
             sent := true }
  let sa := Socket.push rs.2
    { topic := p.topic, event := p.event, payload := p.payload, ref := rs.1 }
  (p1, sa.1, Effect.cancelPushTimeout :: Effect.startPushTimeout :: sa.2)

/-- Counter value after a number of makeRef calls starting from a fresh
socket counter. -/
def refCounterAfter (bound : Nat) : Nat → Nat
  | 0 => 0
  | n + 1 => (makeRefCore bound (refCounterAfter bound n)).2

/-- The string returned by the makeRef call of the given index (zero
based) on a fresh counter. -/
def refOutput (bound n : Nat) : String := (makeRefCore bound (refCounterAfter bound n)).1

/-- Sample status string used by concrete witnesses. -/
def stOk : String := "ok"

/-- Sample topic string used by concrete witnesses. -/
def topicT : String := "t"

/-- Sample second topic string used by concrete witnesses. -/
def topicU : String := "u"

/-- Sample heartbeat ref string used by concrete witnesses. -/
def hbRefSample : String := "3"

/-- Sample reply value used by concrete witnesses. -/
def respSample : Resp := { status := stOk, response := 7 }

/-- Sample started Push with an ok response already recorded, used by
concrete witnesses. -/
def pushSample : Push :=
  { topic := topicT, event := stOk, payload := 0, timeout := 100, sent := true,
    timeoutTimer := true, ref := "1",
    receivedResp := some { status := stOk, response := 7 },
    recHooks := [], refEvent := some (replyEventName hbRefSample) }

/-- Sample message used by concrete witnesses. -/
def msgSample : Message := { topic := topicT, event := stOk, payload := 1, ref := "2" }

/-- Sample message whose topic matches no registered channel. -/
def msgNoMatch : Message := { topic := topicU, event := stOk, payload := 0, ref := hbRefSample }

/-- Sample connected socket with a pending heartbeat ref and a buffered
message, used by concrete witnesses. -/
def sockSample : Socket :=
  { channels := [{ id := 0, topic := topicT, state := ChanState.joining, params := 0 }],
    nextChanId := 1, conn := some { readyState := ReadyState.opened },
    sendBuffer := [msgSample], ref := 2, refOverflow := 9,
    pendingHeartbeatRef := some hbRefSample, heartbeatTimer := true,
    reconnectTimer := false }

/-- Sample disconnected socket with one non closed channel, used by
concrete witnesses. -/
def sockIdle : Socket :=
  { channels := [{ id := 0, topic := topicT, state := ChanState.joining, params := 0 }],
    nextChanId := 1, conn := none, sendBuffer := [], ref := 2, refOverflow := 9,
    pendingHeartbeatRef := none, heartbeatTimer := false, reconnectTimer := true }

/-- Sample registered channel sitting at the closed state reuse boundary. -/
def chanClosedSample : Channel :=
  { id := 0, topic := topicT, state := ChanState.closed, params := 0 }

/-- Sample socket whose registered channel is closed, used by concrete
witnesses. -/
def sockClosedChan : Socket :=
  { channels := [chanClosedSample], nextChanId := 1, conn := none, sendBuffer := [],
    ref := 0, refOverflow := 9, pendingHeartbeatRef := none, heartbeatTimer := false,
    reconnectTimer := false }

/-- Channel registry well formedness: channel identities are pairwise
distinct and below the fresh identity counter, so the collection is
unique by identity while topics may repeat. -/
def chanIdsOk (s : Socket) : Prop :=
  (s.channels.map Channel.id).Nodup ∧ ∀ c ∈ s.channels, c.id < s.nextChanId

theorem digitVal_digitChar (d : Nat) (h : d < 10) : digitVal (Nat.digitChar d) = d := by
  interval_cases d <;> decide

theorem toDigitsCore_append (b f : Nat) :
    ∀ n rest, Nat.toDigitsCore b f n rest = Nat.toDigitsCore b f n [] ++ rest := by
  induction f with
  | zero => intro n rest; simp [Nat.toDigitsCore]
  | succ f ih =>
    intro n rest
    simp only [Nat.toDigitsCore]
    by_cases h : n / b = 0
    · simp [h]
    · simp only [h, if_false]
      rw [ih (n / b) (Nat.digitChar (n % b) :: rest), ih (n / b) [Nat.digitChar (n % b)]]
      simp

theorem foldl_toDigitsCore (f : Nat) :
    ∀ n, n < 10 ^ f → 0 < f →
      List.foldl (fun a c => 10 * a + digitVal c) 0 (Nat.toDigitsCore 10 f n []) = n := by
  induction f with
  | zero => intro n _ h0; omega
  | succ f ih =>
    intro n hn _
    simp only [Nat.toDigitsCore]
    by_cases h : n / 10 = 0
    · simp only [h, if_true, List.foldl]
      rw [digitVal_digitChar (n % 10) (Nat.mod_lt n (by norm_num))]
      omega
    · simp only [h, if_false]
      have hf : 0 < f := by
        rcases Nat.eq_zero_or_pos f with rfl | hf
        · norm_num at hn; omega
        · exact hf
      have hdiv : n / 10 < 10 ^ f := by
        rw [Nat.div_lt_iff_lt_mul (by norm_num : 0 < 10)]
        calc n < 10 ^ (f + 1) := hn
        _ = 10 ^ f * 10 := by rw [pow_succ]
      rw [toDigitsCore_append 10 f (n / 10) [Nat.digitChar (n % 10)]]
      rw [List.foldl_append]
      rw [ih (n / 10) hdiv hf]
      simp only [List.foldl]
      rw [digitVal_digitChar (n % 10) (Nat.mod_lt n (by norm_num))]
      omega

/-- Round trip: reading the decimal string of a number gives the number
back. This is the backbone of every claim about ref strings compared
numerically. -/
theorem parseNat_repr (n : Nat) : parseNat (Nat.repr n) = n := by
  have h1 : n < 10 ^ (n + 1) :=
    lt_of_lt_of_le (Nat.lt_pow_self (by norm_num) n)
      (Nat.pow_le_pow_right (by norm_num) (Nat.le_succ n))
  simpa [parseNat, Nat.repr, Nat.toDigits, List.asString] using
    foldl_toDigitsCore (n + 1) n h1 (Nat.succ_pos n)

theorem Push.step_settled (p : Push) (h : p.settledB = true) (e : PushEvent) :
    p.step e = (p, []) := by
  simp only [Push.settledB, Bool.and_eq_true, Bool.not_eq_true', Option.isNone_iff_eq_none]
    at h
  cases e with
  | timeoutFire => simp [Push.step, h.1]
  | reply r => simp [Push.step, h.2]

theorem Push.runP_settled (p : Push) (h : p.settledB = true) (evs : List PushEvent) :
    p.runP evs = p := by
  induction evs with
  | nil => rfl
  | cons e es ih => simp [Push.runP, Push.step_settled p h e, ih]

theorem Push.step_of_started (p : Push) (h : p.startedB = true) (e : PushEvent) :
    ((p.step e).1).settledB = true
    ∧ (p.step e).1.refEvent = none
    ∧ (p.step e).1.receivedResp
        = some (match e with | .timeoutFire => timeoutResp | .reply r => r) := by
  simp only [Push.startedB, Bool.and_eq_true] at h
  cases e with
  | timeoutFire => simp [Push.step, h.1, Push.settledB]
  | reply r =>
    simp [Push.step, h.2, Push.settledB]

theorem Push.step_refEvent_none (p : Push) (h : p.refEvent = none) (e : PushEvent) :
    (p.step e).1.refEvent = none := by
  cases e with
  | timeoutFire =>
    by_cases ht : p.timeoutTimer <;> simp [Push.step, ht, h]
  | reply r => simp [Push.step, h]

theorem Push.removals_of_none (p : Push) (h : p.refEvent = none) (evs : List PushEvent) :
    p.removals evs = 0 := by
  induction evs generalizing p with
  | nil => rfl
  | cons e es ih =>
    have h2 := Push.step_refEvent_none p h e
    simp [Push.removals, h, ih (p.step e).1 h2]

theorem Push.removals_le_one (p : Push) (evs : List PushEvent) : p.removals evs ≤ 1 := by
  induction evs generalizing p with
  | nil => simp [Push.removals]
  | cons e es ih =>
    by_cases h : p.refEvent.isSome && ((p.step e).1.refEvent).isNone
    · have h2 : (p.step e).1.refEvent = none := by
        have := (Bool.and_eq_true _ _).mp h
        exact Option.isNone_iff_eq_none.mp this.2
      simp [Push.removals, h, Push.removals_of_none (p.step e).1 h2 es]
    · simp only [Push.removals, h, if_false]
      simpa using ih (p.step e).1

theorem refCounterAfter_le (bound : Nat) : ∀ n, n ≤ bound → refCounterAfter bound n = n := by
  intro n
  induction n with
  | zero => intro _; rfl
  | succ n ih =>
    intro h
    have h2 := ih (Nat.le_of_succ_le h)
    have h3 : ¬ bound < n + 1 := by omega
    simp [refCounterAfter, h2, makeRefCore, h3]

theorem refOutput_of_lt (bound n : Nat) (h : n < bound) :
    refOutput bound n = Nat.repr (n + 1) := by
  have h2 := refCounterAfter_le bound n (Nat.le_of_lt h)
  have h3 : ¬ bound < n + 1 := by omega
  simp [refOutput, h2, makeRefCore, h3]

theorem refOutput_at_bound (bound : Nat) : refOutput bound bound = "0" := by
  have h2 := refCounterAfter_le bound bound (Nat.le_refl bound)
  simp [refOutput, h2, makeRefCore]

/-- C1: for every sequence of makeRef calls on one client starting from a
fresh counter, the returned ref strings are strictly increasing when
read as numbers until the configured overflow boundary is reached, the
call at the boundary returns the string 0, and within one counting
epoch no two calls return the same ref. -/
theorem makeRef_monotone_and_wrap (bound i j : Nat) (hij : i < j) (hj : j ≤ bound) :
    (j < bound → parseNat (refOutput bound i) < parseNat (refOutput bound j))
    ∧ refOutput bound bound = "0"
    ∧ refOutput bound i ≠ refOutput bound j := by
  have hi : i < bound := Nat.lt_of_lt_of_le hij hj
  refine ⟨?_, refOutput_at_bound bound, ?_⟩
  · intro hjb
    rw [refOutput_of_lt bound i hi, refOutput_of_lt bound j hjb,
      parseNat_repr, parseNat_repr]
    omega
  · intro heq
    rcases Nat.lt_or_ge j bound with hjb | hjb
    · rw [refOutput_of_lt bound i hi, refOutput_of_lt bound j hjb] at heq
      have h4 := congrArg parseNat heq
      rw [parseNat_repr, parseNat_repr] at h4
      omega
    · have hjeq : j = bound := Nat.le_antisymm hj hjb
      have h0 : Nat.repr 0 = "0" := by decide
      rw [hjeq, refOutput_of_lt bound i hi, refOutput_at_bound bound, ← h0] at heq
      have h4 := congrArg parseNat heq
      rw [parseNat_repr, parseNat_repr] at h4
      omega

theorem makeRef_monotone_and_wrap_witness :
    (2 < 5 → parseNat (refOutput 5 1) < parseNat (refOutput 5 2))
    ∧ refOutput 5 5 = "0"
    ∧ refOutput 5 1 ≠ refOutput 5 2 :=
  makeRef_monotone_and_wrap 5 1 2 (by decide) (by decide)

/-- C2: receive registers the callback for the status and, when a response
with that status has already been recorded in receivedResp, invokes the
callback immediately and synchronously with the stored response; in
every case the returned Push is the receiver itself with the hook
appended, the explicit state passing image of returning this for
chaining. -/
theorem receive_fires_immediately (p : Push) (st : String) (cb : Nat) :
    (∀ r, p.receivedResp = some r → r.status = st →
      (p.receive st cb).2 = [{ callback := cb, response := r.response }])
    ∧ (p.receive st cb).1
        = { p with recHooks := p.recHooks ++ [{ status := st, callback := cb }] } := by
  constructor
  · intro r hr hst
    simp [Push.receive, hr, hst]
  · rfl

theorem receive_fires_immediately_witness :
    (pushSample.receive stOk 5).2 = [{ callback := 5, response := 7 }]
    ∧ (pushSample.receive stOk 5).1
        = { pushSample with
              recHooks := pushSample.recHooks ++ [{ status := stOk, callback := 5 }] } :=
  ⟨(receive_fires_immediately pushSample stOk 5).1
      { status := stOk, response := 7 } rfl rfl,
    (receive_fires_immediately pushSample stOk 5).2⟩

/-- C4: once the local timeout of a started Push has fired (recording the
synthesized timeout response and removing the reply event binding), a
real reply arriving later is never delivered to any hook and leaves the
Push unchanged; every settling event removes the binding immediately,
so the binding is removed exactly once, by whichever of timeout or real
reply happens first, and along any run it is removed at most once. -/
theorem push_timeout_terminal (p : Push) (hs : p.startedB = true) :
    ((p.step PushEvent.timeoutFire).1.receivedResp = some timeoutResp)
    ∧ (∀ evs r,
        (((p.step PushEvent.timeoutFire).1).runP evs).step (PushEvent.reply r)
          = ((((p.step PushEvent.timeoutFire).1).runP evs), []))
    ∧ (∀ e, (p.step e).1.refEvent = none)
    ∧ (∀ evs, p.removals evs ≤ 1) := by
  have h0 := Push.step_of_started p hs PushEvent.timeoutFire
  refine ⟨h0.2.2, ?_, fun e => (Push.step_of_started p hs e).2.1,
    fun evs => Push.removals_le_one p evs⟩
  intro evs r
  rw [Push.runP_settled _ h0.1 evs]
  exact Push.step_settled _ h0.1 _

theorem push_timeout_terminal_witness :
    ((pushSample.step PushEvent.timeoutFire).1.receivedResp = some timeoutResp)
    ∧ ((((pushSample.step PushEvent.timeoutFire).1).runP []).step (PushEvent.reply respSample)
        = ((((pushSample.step PushEvent.timeoutFire).1).runP []), []))
    ∧ ((pushSample.step PushEvent.timeoutFire).1.refEvent = none)
    ∧ (pushSample.removals [PushEvent.timeoutFire] ≤ 1) :=
  ⟨(push_timeout_terminal pushSample (by decide)).1,
    (push_timeout_terminal pushSample (by decide)).2.1 [] respSample,
    (push_timeout_terminal pushSample (by decide)).2.2.1 PushEvent.timeoutFire,
    (push_timeout_terminal pushSample (by decide)).2.2.2 [PushEvent.timeoutFire]⟩

/-- C8: resend cancels the existing timeout timer, clears receivedResp,
obtains a fresh ref (within the counting epoch the new ref differs from
the old one, so the Push never reuses its old ref after a resend), and
sends again arming a new timeout; absent a resend, a started Push
settles exactly once: its first settling event records a single
terminal response, the synthesized timeout or the first reply, and the
Push never changes afterwards. -/
theorem resend_fresh_ref_single_terminal (p : Push) (s : Socket) (tmo k : Nat)
    (hk : p.ref = Nat.repr k) (hks : k ≤ s.ref) (hov : s.ref < s.refOverflow) :
    ((p.resend s tmo).1.receivedResp = none
      ∧ (p.resend s tmo).1.ref = Nat.repr (s.ref + 1)
      ∧ (p.resend s tmo).1.ref ≠ p.ref
      ∧ (p.resend s tmo).1.timeoutTimer = true
      ∧ (p.resend s tmo).2.2.head? = some Effect.cancelPushTimeout)
    ∧ (∀ q : Push, q.startedB = true → ∀ e evs,
        (((q.step e).1).runP evs) = (q.step e).1
        ∧ (q.step e).1.receivedResp
            = some (match e with
                    | PushEvent.timeoutFire => timeoutResp
                    | PushEvent.reply r => r)) := by
  have h3 : ¬ s.refOverflow < s.ref + 1 := by omega
  have hrepr : (p.resend s tmo).1.ref = Nat.repr (s.ref + 1) := by
    simp [Push.resend, Socket.makeRef, makeRefCore, h3]
  refine ⟨⟨rfl, hrepr, ?_, rfl, rfl⟩, ?_⟩
  · rw [hrepr, hk]
    intro heq
    have h4 := congrArg parseNat heq
    rw [parseNat_repr, parseNat_repr] at h4
    omega
  · intro q hq e evs
    have h0 := Push.step_of_started q hq e
    exact ⟨Push.runP_settled _ h0.1 evs, h0.2.2⟩

theorem resend_fresh_ref_single_terminal_witness :
    (pushSample.resend sockSample 100).1.receivedResp = none
    ∧ (pushSample.resend sockSample 100).1.ref = Nat.repr (sockSample.ref + 1)
    ∧ (pushSample.resend sockSample 100).1.ref ≠ pushSample.ref
    ∧ (pushSample.resend sockSample 100).1.timeoutTimer = true
    ∧ (pushSample.resend sockSample 100).2.2.head? = some Effect.cancelPushTimeout :=
  (resend_fresh_ref_single_terminal pushSample sockSample 100 1
    (by decide) (by decide) (by decide)).1

/-- C3: at a heartbeat tick where the pending heartbeat ref is still non
null, the client force closes the transport and schedules reconnection
instead of sending a second heartbeat, and the pending ref is cleared;
moreover across every socket event the pending heartbeat ref is either
preserved, cleared (on its acknowledgement, on transport open after a
reconnect, or by the force close), or set by the heartbeat send itself,
so the ref is non null only between a sent heartbeat and its
acknowledgement or the next reconnect, and at most one heartbeat ref is
ever outstanding. -/
theorem heartbeat_at_most_one_outstanding (s : Socket) :
    (s.isConnected = true → ∀ r0, s.pendingHeartbeatRef = some r0 →
      s.sendHeartbeat
        = ({ s with pendingHeartbeatRef := none, conn := none, reconnectTimer := true },
            [Effect.forceClose, Effect.scheduleReconnect]))
    ∧ (∀ e, (s.step e).1.pendingHeartbeatRef = s.pendingHeartbeatRef
        ∨ (s.step e).1.pendingHeartbeatRef = none
        ∨ (e = SockEvent.heartbeatTick ∧ s.pendingHeartbeatRef = none
            ∧ (s.step e).1.pendingHeartbeatRef = some (makeRefCore s.refOverflow s.ref).1
            ∧ (s.step e).2
                = [Effect.transmit (heartbeatMessage (makeRefCore s.refOverflow s.ref).1)])) := by
  constructor
  · intro hc r0 hr
    simp [Socket.sendHeartbeat, hc, hr]
  · intro e
    cases e with
    | heartbeatTick =>
      by_cases hc : s.isConnected
      · cases hp : s.pendingHeartbeatRef with
        | some r =>
          refine Or.inr (Or.inl ?_)
          simp [Socket.step, Socket.sendHeartbeat, hc, hp]
        | none =>
          have hc2 : Socket.isConnected { s with ref := (makeRefCore s.refOverflow s.ref).2, pendingHeartbeatRef := some (makeRefCore s.refOverflow s.ref).1 } = true := hc
          refine Or.inr (Or.inr ⟨rfl, rfl, ?_, ?_⟩) <;>
            simp [Socket.step, Socket.sendHeartbeat, Socket.push, Socket.makeRef,
              hc, hp, hc2]
      · refine Or.inl ?_
        simp [Socket.step, Socket.sendHeartbeat, hc]
    | inbound m =>
      by_cases hp : s.pendingHeartbeatRef == some m.ref
      · refine Or.inr (Or.inl ?_)
        simp [Socket.step, Socket.onConnMessage, hp]
      · refine Or.inl ?_
        simp [Socket.step, Socket.onConnMessage, hp]
    | connOpen =>
      refine Or.inr (Or.inl ?_)
      simp only [Socket.step, Socket.flushSendBuffer]
      split <;> rfl
    | connClose => exact Or.inl rfl
    | pushReq m =>
      refine Or.inl ?_
      simp only [Socket.step, Socket.push]
      split <;> rfl
    | disconnectReq => exact Or.inl rfl

theorem heartbeat_at_most_one_outstanding_witness :
    sockSample.sendHeartbeat
      = ({ sockSample with pendingHeartbeatRef := none, conn := none, reconnectTimer := true },
          [Effect.forceClose, Effect.scheduleReconnect]) :=
  (heartbeat_at_most_one_outstanding sockSample).1 (by decide) hbRefSample (by decide)

/-- C5: push transmits the encoded message immediately when the client is
connected and otherwise appends the serialize and send closure to the
send buffer; flushing while connected runs the buffered closures in the
order they were enqueued and leaves the buffer empty. -/
theorem push_transmits_or_buffers (s : Socket) (m : Message) :
    (s.isConnected = true → s.push m = (s, [Effect.transmit m]))
    ∧ (s.isConnected = false →
        s.push m = ({ s with sendBuffer := s.sendBuffer ++ [m] }, []))
    ∧ (s.isConnected = true →
        s.flushSendBuffer
          = ({ s with sendBuffer := [] }, s.sendBuffer.map Effect.transmit)) := by
  refine ⟨fun h => ?_, fun h => ?_, fun h => ?_⟩ <;>
    simp [Socket.push, Socket.flushSendBuffer, h]

theorem push_transmits_or_buffers_witness :
    (sockSample.push msgSample = (sockSample, [Effect.transmit msgSample]))
    ∧ (sockIdle.push msgSample
        = ({ sockIdle with sendBuffer := sockIdle.sendBuffer ++ [msgSample] }, []))
    ∧ (sockSample.flushSendBuffer
        = ({ sockSample with sendBuffer := [] },
            sockSample.sendBuffer.map Effect.transmit)) :=
  ⟨(push_transmits_or_buffers sockSample msgSample).1 (by decide),
    (push_transmits_or_buffers sockIdle msgSample).2.1 (by decide),
    (push_transmits_or_buffers sockSample msgSample).2.2 (by decide)⟩

/-- C6: channel returns an existing registered Channel for the topic when
one is registered at the closed state reuse boundary, and otherwise
constructs a new Channel, registers it in the channels collection, and
returns it; well formedness of the registry (channels pairwise distinct
by identity, identities below the fresh counter) is preserved, while
multiple channels may share a topic, as the concrete reuse boundary
example shows. -/
theorem channel_reuse_or_create (s : Socket) (topic : String) (ps : Nat) :
    (∀ c, s.channels.find? (fun c => c.topic == topic && c.state == ChanState.closed) = some c →
        Socket.channel s topic ps = (s, c) ∧ c.topic = topic ∧ c.state = ChanState.closed
          ∧ c ∈ s.channels)
    ∧ (s.channels.find? (fun c => c.topic == topic && c.state == ChanState.closed) = none →
        Socket.channel s topic ps
          = ({ s with channels := s.channels ++ [{ id := s.nextChanId, topic := topic, state := ChanState.closed, params := ps }], nextChanId := s.nextChanId + 1 },
              { id := s.nextChanId, topic := topic, state := ChanState.closed, params := ps }))
    ∧ (chanIdsOk s → chanIdsOk (Socket.channel s topic ps).1)
    ∧ ((Socket.channel sockIdle topicT 0).1.channels.map Channel.topic = [topicT, topicT]
        ∧ chanIdsOk (Socket.channel sockIdle topicT 0).1) := by
  refine ⟨?_, ?_, ?_, ⟨by decide, by unfold chanIdsOk; decide⟩⟩
  · intro c hc
    have hp := List.find?_some hc
    have hm := List.mem_of_find?_eq_some hc
    simp only [Bool.and_eq_true, beq_iff_eq] at hp
    exact ⟨by simp [Socket.channel, hc], hp.1, hp.2, hm⟩
  · intro hn
    simp [Socket.channel, hn]
  · intro hok
    cases hfind : s.channels.find? (fun c => c.topic == topic && c.state == ChanState.closed) with
    | some c => simpa [Socket.channel, hfind] using hok
    | none =>
      rcases hok with ⟨hnd, hlt⟩
      constructor
      · simp only [Socket.channel, hfind, List.map_append, List.map_cons, List.map_nil]
        rw [List.nodup_append]
        refine ⟨hnd, List.nodup_singleton _, ?_⟩
        intro a ha hb
        simp only [List.mem_singleton] at hb
        rcases List.mem_map.mp ha with ⟨ch, hch, hcha⟩
        have h5 := hlt ch hch
        omega
      · intro ch hch
        simp only [Socket.channel, hfind, List.mem_append, List.mem_singleton] at hch
        simp only [Socket.channel, hfind]
        rcases hch with hch | hch
        · have h5 := hlt ch hch
          omega
        · subst hch
          show s.nextChanId < s.nextChanId + 1
          omega

theorem channel_reuse_or_create_witness :
    (Socket.channel sockClosedChan topicT 0 = (sockClosedChan, chanClosedSample)
      ∧ chanClosedSample.topic = topicT ∧ chanClosedSample.state = ChanState.closed
      ∧ chanClosedSample ∈ sockClosedChan.channels)
    ∧ chanIdsOk (Socket.channel sockIdle topicT 0).1 :=
  ⟨(channel_reuse_or_create sockClosedChan topicT 0).1 chanClosedSample (by decide),
    (channel_reuse_or_create sockIdle topicT 0).2.2.1 (by unfold chanIdsOk; decide)⟩

/-- C7: onConnMessage with an envelope whose ref equals the pending
heartbeat ref only clears that ref and dispatches to no channel;
otherwise it dispatches the envelope to every registered channel whose
topic equals the envelope topic by exact string equality, and an
envelope whose topic matches no registered channel is silently dropped
with the socket unchanged and no error. -/
theorem onConnMessage_heartbeat_or_dispatch (s : Socket) (m : Message) :
    (s.pendingHeartbeatRef = some m.ref →
      s.onConnMessage m = ({ s with pendingHeartbeatRef := none }, []))
    ∧ (s.pendingHeartbeatRef ≠ some m.ref →
      s.onConnMessage m
        = (s, (s.channels.filter (fun c => c.topic == m.topic)).map
            (fun c => Effect.dispatch c.id m)))
    ∧ (s.pendingHeartbeatRef ≠ some m.ref → (∀ c ∈ s.channels, c.topic ≠ m.topic) →
      s.onConnMessage m = (s, [])) := by
  refine ⟨fun h => ?_, fun h => ?_, fun h hnone => ?_⟩
  · simp [Socket.onConnMessage, h]
  · have hb : (s.pendingHeartbeatRef == some m.ref) = false := by
      simp [beq_eq_false_iff_ne, h]
    simp [Socket.onConnMessage, hb]
  · have hb : (s.pendingHeartbeatRef == some m.ref) = false := by
      simp [beq_eq_false_iff_ne, h]
    have hfil : s.channels.filter (fun c => c.topic == m.topic) = [] := by
      rw [List.filter_eq_nil_iff]
      intro c hc
      simpa using hnone c hc
    simp [Socket.onConnMessage, hb, hfil]

theorem onConnMessage_heartbeat_or_dispatch_witness :
    (sockSample.onConnMessage (heartbeatMessage hbRefSample)
      = ({ sockSample with pendingHeartbeatRef := none }, []))
    ∧ (sockIdle.onConnMessage msgNoMatch = (sockIdle, [])) :=
  ⟨(onConnMessage_heartbeat_or_dispatch sockSample (heartbeatMessage hbRefSample)).1
      (by decide),
    (onConnMessage_heartbeat_or_dispatch sockIdle msgNoMatch).2.2 (by decide) (by decide)⟩

/-- C9: disconnect cancels the reconnect and heartbeat timers, closes the
transport when one is present, and always resolves with the success
value, never throwing synchronously to the caller: in this total model
the result is unconditionally the resolved pair of no error and true. -/
theorem disconnect_always_resolves (s : Socket) :
    (s.disconnect).2 = { error := none, data := true }
    ∧ (s.disconnect).1.heartbeatTimer = false
    ∧ (s.disconnect).1.reconnectTimer = false
    ∧ (s.disconnect).1.conn = none :=
  ⟨rfl, rfl, rfl, rfl⟩

/-- C10: connectionState returns exactly one of the four strings
connecting, open, closing, closed, and isConnected holds exactly when
connectionState returns open. -/
theorem connectionState_four_values (s : Socket) :
    (s.connectionState = "connecting" ∨ s.connectionState = "open"
      ∨ s.connectionState = "closing" ∨ s.connectionState = "closed")
    ∧ (s.isConnected = true ↔ s.connectionState = "open") := by
  constructor
  · cases hc : s.conn with
    | none => simp [Socket.connectionState, hc]
    | some c => cases hr : c.readyState <;> simp [Socket.connectionState, hc, hr]
  · simp [Socket.isConnected]
